import Mathlib

/-!
Verification of the YOLOv4-PyTorch model-assembly and scheduling core.

The development shallowly embeds the relevant parts of
`yolov4_pytorch/model/module/layer.py` (the `Detect` head, `YOLO.__init__`
stride/anchor initialisation and `parse_model`) and
`yolov4_pytorch/solver/lr_scheduler.py` (`WarmupMultiStepLR` and
`_get_warmup_factor_at_iter`), and proves or refutes the specified
properties about them.

Modelling conventions: Python floats are modelled as `ℚ` (exact arithmetic
of the concrete inputs involved) except for the detection-head decode,
whose sigmoid is transcendental and is modelled over `ℝ`; Python
exceptions are modelled with `Except`; Python lists with `List`.
-/

/-- Generic observer: did an `Except`-valued computation succeed? -/
def isOkB {ε α : Type} (e : Except ε α) : Bool :=
  match e with
  | .ok _ => true
  | .error _ => false

/-! ## Learning-rate scheduler (`yolov4_pytorch/solver/lr_scheduler.py`) -/

/-- Error kinds raised by the scheduler code (`ValueError` in Python). -/
inductive SchedErr : Type where
  | valueError
  | unknownMethod
deriving DecidableEq

/-- The string constant given as `warmup_method` for linear warmup. -/
def linearName : String := "linear"

/-- The string constant given as `warmup_method` for constant warmup. -/
def constantName : String := "constant"

/-- Embeds `_get_warmup_factor_at_iter` (lr_scheduler.py lines 193-217):
returns 1 once `iters >= warmup_iters`, otherwise dispatches on the method
string, raising `ValueError` for an unknown method. -/
def getWarmupFactorAtIter (method : String) (iters warmup_iters : Int)
    (warmup_factor : ℚ) : Except SchedErr ℚ :=
  if warmup_iters ≤ iters then .ok 1
  else if method = constantName then .ok warmup_factor
  else if method = linearName then
    .ok (warmup_factor * (1 - (iters : ℚ) / (warmup_iters : ℚ)) +
      (iters : ℚ) / (warmup_iters : ℚ))
  else .error .unknownMethod

/-- State stored by the `WarmupMultiStepLR` constructor. -/
structure WarmupMultiStepLRSched where
  milestones : List Int
  gamma : ℚ
  warmup_factor : ℚ
  warmup_iters : Int
  warmup_method : String
deriving DecidableEq

/-- Embeds the `WarmupMultiStepLR.__init__` validation (lr_scheduler.py
lines 122-133): Python compares `list(milestones)` with
`sorted(milestones)` and raises `ValueError` when they differ; `sorted` is
modelled by `List.insertionSort` (a stable sort, like Python's). -/
def warmupMultiStepLRInit (milestones : List Int) (gamma warmup_factor : ℚ)
    (warmup_iters : Int) (warmup_method : String) :
    Except SchedErr WarmupMultiStepLRSched :=
  if milestones = List.insertionSort (· ≤ ·) milestones then
    .ok ⟨milestones, gamma, warmup_factor, warmup_iters, warmup_method⟩
  else .error .valueError

/-- Embeds `bisect.bisect_right` as used on the (validated, hence sorted)
milestone list: the insertion point, i.e. the number of leading elements
not exceeding `x`. -/
def bisect_right (l : List Int) (x : Int) : Nat :=
  match l with
  | [] => 0
  | a :: t => if x < a then 0 else bisect_right t x + 1

/-- Embeds `WarmupMultiStepLR.get_lr` (lr_scheduler.py lines 135-142):
each learning rate is `base_lr * warmup_factor * gamma **
bisect_right(milestones, last_epoch)`. -/
def getLR (s : WarmupMultiStepLRSched) (base_lrs : List ℚ)
    (last_epoch : Int) : Except SchedErr (List ℚ) :=
  match getWarmupFactorAtIter s.warmup_method last_epoch s.warmup_iters
      s.warmup_factor with
  | .error e => .error e
  | .ok w =>
    .ok (base_lrs.map (fun b =>
      b * w * s.gamma ^ bisect_right s.milestones last_epoch))

/-! ## Model builder (`yolov4_pytorch/model/module/layer.py`, `parse_model`) -/

/-- Python exception kinds that `parse_model` can raise. -/
inductive PyErr : Type where
  | nameError
  | indexError
  | typeError
  | zeroDivisionError
deriving DecidableEq

/-- A configuration argument value: either an already-numeric YAML value or
a string that `parse_model` will try to `eval`. -/
inductive Val : Type where
  | int (n : Int)
  | str (s : String)
deriving DecidableEq

/-- A layer's `from` field: a single index or a list of indices. -/
inductive FSpec : Type where
  | one (i : Int)
  | many (l : List Int)
deriving DecidableEq

/-- One `[from, number, module, args]` row of the `backbone`/`head` lists. -/
structure LayerSpec where
  f : FSpec
  number : Int
  module : String
  args : List Val
deriving DecidableEq

/-- The closed set of module classes importable inside `parse_model`
(layer.py lines 20-32 plus `nn.Conv2d`/`nn.BatchNorm2d`). -/
inductive ModuleKind : Type where
  | conv2d
  | conv
  | bottleneck
  | spp
  | dwconv
  | mixconv2d
  | focus
  | bottleneckCSP
  | resnetBottleneck
  | mobileNetConv
  | convBNReLU
  | crossConv
  | batchNorm2d
  | concat
  | detect
  | maxpool
deriving DecidableEq

def nnConv2dName : String := "nn.Conv2d"
def convName : String := "Conv"
def bottleneckName : String := "Bottleneck"
def sppName : String := "SPP"
def dwConvName : String := "DWConv"
def mixConv2dName : String := "MixConv2d"
def focusName : String := "Focus"
def bottleneckCSPName : String := "BottleneckCSP"
def resNetBottleneckName : String := "ResNetBottleneck"
def mobileNetConvName : String := "MobileNetConv"
def convBNReLUName : String := "ConvBNReLU"
def crossConvName : String := "CrossConv"
def nnBatchNorm2dName : String := "nn.BatchNorm2d"
def concatName : String := "Concat"
def detectName : String := "Detect"
def maxpoolName : String := "Maxpool"

/-- Embeds `module = eval(module)` (layer.py line 193): a known class name
resolves to its class, any other name raises a `NameError` (the repository
defines no dedicated configuration-error class). -/
def resolveModule (s : String) : Except PyErr ModuleKind :=
  if s = nnConv2dName then .ok .conv2d
  else if s = convName then .ok .conv
  else if s = bottleneckName then .ok .bottleneck
  else if s = sppName then .ok .spp
  else if s = dwConvName then .ok .dwconv
  else if s = mixConv2dName then .ok .mixconv2d
  else if s = focusName then .ok .focus
  else if s = bottleneckCSPName then .ok .bottleneckCSP
  else if s = resNetBottleneckName then .ok .resnetBottleneck
  else if s = mobileNetConvName then .ok .mobileNetConv
  else if s = convBNReLUName then .ok .convBNReLU
  else if s = crossConvName then .ok .crossConv
  else if s = nnBatchNorm2dName then .ok .batchNorm2d
  else if s = concatName then .ok .concat
  else if s = detectName then .ok .detect
  else if s = maxpoolName then .ok .maxpool
  else .error .nameError

/-- Embeds the per-argument `try: args[j] = eval(a) ... except: pass`
(layer.py lines 194-198): an integer-literal string evaluates to its
value; evaluating any other string raises inside the `try` block and the
`except: pass` leaves the raw string in place. -/
def resolveArg (a : Val) : Val :=
  match a with
  | .int n => .int n
  | .str s =>
    match s.toInt? with
    | some n => .int n
    | none => .str s

/-- Python 3 `round`: round half to even (appears in the depth gain). -/
def pyRound (q : ℚ) : Int :=
  let n := ⌊q⌋
  let r := q - n
  if r < 1 / 2 then n
  else if 1 / 2 < r then n + 1
  else if n % 2 = 0 then n else n + 1

/-- Embeds `number = max(round(number * depth_multiple), 1) if number > 1
else number` (layer.py line 200). -/
def depthGain (number : Int) (depth_multiple : ℚ) : Int :=
  if 1 < number then max (pyRound ((number : ℚ) * depth_multiple)) 1
  else number

/-- Python list indexing `l[i]`: negative indices count from the end;
out-of-range indices raise `IndexError`. -/
def pyGet (l : List Int) (i : Int) : Except PyErr Int :=
  let j := if i < 0 then i + (l.length : Int) else i
  if 0 ≤ j then
    match l.get? j.toNat with
    | some v => .ok v
    | none => .error .indexError
  else .error .indexError

/-- Modelled from the spec: `make_divisible` (imported from
`yolov4_pytorch/utils/common.py`, a file absent from the sources) rounds a
width up to the nearest multiple of the divisor, so that
`make_divisible(c, 8) = c` for every `c` already divisible by 8. -/
def make_divisible (x : ℚ) (divisor : Int) : Int :=
  ⌈x / (divisor : ℚ)⌉ * divisor

/-- The twelve convolution-like classes of the membership test at
layer.py lines 201-202. -/
def ModuleKind.isConvLike : ModuleKind → Bool
  | .conv2d | .conv | .bottleneck | .spp | .dwconv | .mixconv2d | .focus
  | .bottleneckCSP | .resnetBottleneck | .mobileNetConv | .convBNReLU
  | .crossConv => true
  | _ => false

/-- Truthiness of a `from` value, for `f = f or ...` (layer.py line 232). -/
def FSpec.isFalsy : FSpec → Bool
  | .one n => n = 0
  | .many l => l.isEmpty

/-- The indices iterated by `[f] if isinstance(f, int) else f`. -/
def FSpec.indices : FSpec → List Int
  | .one n => [n]
  | .many l => l

/-- Embeds `Detect`'s default `from` (layer.py line 232): the reversed
list, over positions `j` of the channel list holding exactly
`num_outputs` channels, of `-1` when `j` is the current index `i` and
`j - 1` otherwise. -/
def detectDefaultFrom (channels : List Int) (i : Nat) (num_outputs : Int) :
    List Int :=
  ((channels.enum.filter (fun p => p.2 = num_outputs)).map
    (fun p => if p.1 = i then (-1 : Int) else (p.1 : Int) - 1)).reverse

/-- Error-propagating map over a list (the semantics of a Python list
comprehension whose body may raise). -/
def mapExc {α β : Type} (g : α → Except PyErr β) : List α → Except PyErr (List β)
  | [] => .ok []
  | x :: xs =>
    match g x with
    | .error e => .error e
    | .ok v =>
      match mapExc g xs with
      | .error e => .error e
      | .ok vs => .ok (v :: vs)

/-- The evaluation context fixed before the `parse_model` loop:
`depth_multiple`, `width_multiple` and `num_outputs = num_anchors *
(num_classes + 5)` (layer.py lines 186-189). -/
structure Ctx where
  depth_multiple : ℚ
  width_multiple : ℚ
  num_outputs : Int
deriving DecidableEq

/-- Metadata attached to each constructed block (layer.py line 242);
module internals are external to the sources, so a built layer is the
constructor call it records: kind, final argument list, repeat count. -/
structure BuiltLayer where
  i : Nat
  f : FSpec
  kind : ModuleKind
  number : Int
  args : List Val
deriving DecidableEq

/-- The loop state of `parse_model`: current index `i`, the growing
channel list, the running `out_channels` variable (which persists across
iterations that do not assign it), the save list and the built layers. -/
structure PState where
  i : Nat
  channels : List Int
  out_channels : Int
  save : List Int
  layers : List BuiltLayer
deriving DecidableEq

/-- The branch of the loop body that dispatches on the module kind
(layer.py lines 201-237), returning the possibly-updated `from`, the new
`out_channels`, the final argument list and the final repeat count. -/
def layerRule (ctx : Ctx) (st : PState) (kind : ModuleKind)
    (args : List Val) (number : Int) (f : FSpec) :
    Except PyErr (FSpec × Int × List Val × Int) :=
  match kind with
  | .batchNorm2d =>
    match f with
    | .many _ => .error .typeError
    | .one n =>
      match pyGet st.channels n with
      | .error e => .error e
      | .ok c => .ok (f, st.out_channels, [.int c], number)
  | .concat =>
    match f with
    | .one _ => .error .typeError
    | .many xs =>
      match mapExc (fun x =>
          pyGet st.channels (if x = -1 then -1 else x + 1)) xs with
      | .error e => .error e
      | .ok vs => .ok (f, vs.sum, args, number)
  | .detect =>
    .ok (if f.isFalsy then
           .many (detectDefaultFrom st.channels st.i ctx.num_outputs)
         else f,
         st.out_channels, args, number)
  | .maxpool =>
    match args with
    | a :: b :: _ => .ok (f, st.out_channels, [a, b], number)
    | _ => .error .indexError
  | k =>
    match f with
    | .many _ => .error .typeError
    | .one n =>
      match pyGet st.channels n with
      | .error e => .error e
      | .ok c1 =>
        match args with
        | [] => .error .indexError
        | .str _ :: _ => .error .typeError
        | .int v :: rest =>
          let c2 : Int :=
            if v ≠ ctx.num_outputs then
              make_divisible ((v : ℚ) * ctx.width_multiple) 8
            else v
          if k = .bottleneckCSP then
            .ok (f, c2, .int c1 :: .int c2 :: .int number :: rest, 1)
          else
            .ok (f, c2, .int c1 :: .int c2 :: rest, number)

/-- Embeds `save.extend(x % i for x in ([f] if isinstance(f, int) else f)
if x != -1)` (layer.py line 244); `x % 0` raises `ZeroDivisionError`. -/
def saveEntries (f : FSpec) (i : Nat) : Except PyErr (List Int) :=
  mapExc (fun x =>
      if i = 0 then .error .zeroDivisionError else .ok (x % (i : Int)))
    (f.indices.filter (fun x => x ≠ -1))

/-- One iteration of the `parse_model` loop (layer.py lines 192-246). -/
def parseStep (ctx : Ctx) (st : PState) (spec : LayerSpec) :
    Except PyErr PState :=
  match resolveModule spec.module with
  | .error e => .error e
  | .ok kind =>
    match layerRule ctx st kind (spec.args.map resolveArg)
        (depthGain spec.number ctx.depth_multiple) spec.f with
    | .error e => .error e
    | .ok (f1, out1, args1, number1) =>
      match saveEntries f1 st.i with
      | .error e => .error e
      | .ok saves =>
        .ok { i := st.i + 1,
              channels := st.channels ++ [out1],
              out_channels := out1,
              save := st.save ++ saves,
              layers := st.layers ++ [⟨st.i, f1, kind, number1, args1⟩] }

/-- The `parse_model` loop over all layer specs. -/
def runParse (ctx : Ctx) (st : PState) : List LayerSpec → Except PyErr PState
  | [] => .ok st
  | s :: rest =>
    match parseStep ctx st s with
    | .error e => .error e
    | .ok st1 => runParse ctx st1 rest

/-- The model configuration dictionary. The Python dict has a
`num_classes` key read by `parse_model` (layer.py line 185) and an
optional `classes` key written by `YOLO.__init__`'s override
(layer.py line 91); both are modelled as separate fields. -/
structure ModelDict where
  anchors : List (List ℚ)
  num_classes : Int
  classes : Option Int
  depth_multiple : ℚ
  width_multiple : ℚ
  backbone : List LayerSpec
  head : List LayerSpec
deriving DecidableEq

/-- What `parse_model` produces: the built layers, the sorted save list
(layer.py line 247) and the final channel list (the caller-visible
`channels` after the loop). -/
structure ParseResult where
  layers : List BuiltLayer
  save : List Int
  channels : List Int
deriving DecidableEq

/-- Embeds `num_outputs = (len(anchors[0]) // 2) * (num_classes + 5)`
(layer.py lines 188-189). -/
def numOutputsOf (md : ModelDict) : Int :=
  ((md.anchors.headD []).length / 2 : Nat) * (md.num_classes + 5)

/-- Embeds `parse_model(model_dict, channels)` (layer.py lines 182-247);
Python's `sorted` is modelled by `List.insertionSort` (stable, like
Python's sort). -/
def parse_model (md : ModelDict) (channels : List Int) :
    Except PyErr ParseResult :=
  match md.anchors with
  | [] => .error .indexError
  | _ :: _ =>
    match channels.getLast? with
    | none => .error .indexError
    | some cLast =>
      let ctx : Ctx :=
        ⟨md.depth_multiple, md.width_multiple, numOutputsOf md⟩
      match runParse ctx ⟨0, channels, cLast, [], []⟩
          (md.backbone ++ md.head) with
      | .error e => .error e
      | .ok st =>
        .ok ⟨st.layers, List.insertionSort (· ≤ ·) st.save, st.channels⟩

/-- Embeds `if classes: self.config_file['classes'] = classes`
(layer.py lines 90-91): the override writes the `classes` key (and only
that key) when the argument is truthy. -/
def yoloOverrideClasses (md : ModelDict) (classes : Option Int) : ModelDict :=
  match classes with
  | some c => if c ≠ 0 then { md with classes := some c } else md
  | none => md

/-! ## Detection head (`Detect`, layer.py lines 41-77) -/

/-- The logistic sigmoid used by the decode (`torch.sigmoid`). -/
noncomputable def sigmoid (t : ℝ) : ℝ := 1 / (1 + Real.exp (-t))

/-- Embeds the center decode of layer.py line 68 for one component:
`(sigmoid(t) * 2 - 0.5 + gridCell) * stride`. -/
noncomputable def decodeXY (t cell stride : ℝ) : ℝ :=
  (sigmoid t * 2 - 0.5 + cell) * stride

/-- Embeds the size decode of layer.py line 69 for one component:
`(sigmoid(t) * 2) ** 2 * anchor`. -/
noncomputable def decodeWH (t anchor : ℝ) : ℝ :=
  (sigmoid t * 2) ^ 2 * anchor

/-- One raw per-scale feature map, shape `(bs, na*no, ny, nx)`, as a value
function over indices. -/
structure RawFeature where
  bs : Nat
  ny : Nat
  nx : Nat
  data : Nat → Nat → Nat → Nat → ℝ

/-- A reshaped per-scale tensor, shape `(bs, na, ny, nx, no)`. -/
structure ShapedFeature where
  bs : Nat
  na : Nat
  ny : Nat
  nx : Nat
  no : Nat
  val : Nat → Nat → Nat → Nat → Nat → ℝ

/-- Embeds `x[i].view(bs, na, no, ny, nx).permute(0, 1, 3, 4, 2)`
(layer.py line 61): the channel block `a*no + o` holds output `o` of
anchor `a`. -/
def reshapeFeature (na no : Nat) (t : RawFeature) : ShapedFeature :=
  ⟨t.bs, na, t.ny, t.nx, no, fun b a y x o => t.data b (a * no + o) y x⟩

/-- The `Detect` module state: configuration, the `anchor_grid` buffer
(pixel-unit anchors, scale and anchor index to a width/height pair), the
per-scale strides, and the `training`/`export` flags. `exportFlag` models
the Python attribute `export` (layer.py line 53). -/
structure Detect where
  num_classes : Nat
  nl : Nat
  na : Nat
  anchor_grid : Nat → Nat → ℝ × ℝ
  stride : Nat → ℝ
  training : Bool
  exportFlag : Bool

/-- `self.no = num_classes + 5` (layer.py line 46). -/
def Detect.no (d : Detect) : Nat := d.num_classes + 5

/-- The grid value entering the decode at output slot `o < 2`: `_make_grid`
(layer.py lines 74-77) stacks `(xv, yv)`, so slot 0 reads the cell's x
index and slot 1 its y index. -/
def gridCell (o x y : Nat) : ℝ := if o = 0 then (x : ℝ) else (y : ℝ)

/-- The anchor component entering the decode at output slot `o`: slot 2
multiplies the anchor width, slot 3 its height. -/
def anchorComp (p : ℝ × ℝ) (o : Nat) : ℝ := if o = 2 then p.1 else p.2

/-- Embeds the inference decode of one scale (layer.py lines 67-69):
`y = x[i].sigmoid()`, then slots 0-1 are recentered and scaled by the
stride, slots 2-3 squared-sigmoid-scaled by the pixel anchor, and the
remaining slots (objectness, class scores) stay plain sigmoids. -/
noncomputable def decodeScale (d : Detect) (i : Nat) (t : ShapedFeature) :
    ShapedFeature :=
  { t with val := fun b a y x o =>
      if o < 2 then decodeXY (t.val b a y x o) (gridCell o x y) (d.stride i)
      else if o < 4 then decodeWH (t.val b a y x o) (anchorComp (d.anchor_grid i a) o)
      else sigmoid (t.val b a y x o) }

/-- The value returned by `Detect.forward` (layer.py line 72): the
reshaped per-scale tensors in training mode, or the decoded per-scale
tensors (flattened and concatenated in the source; kept per scale here)
together with the reshaped tensors in inference mode. -/
inductive DetectOutput where
  | train (xs : List ShapedFeature)
  | infer (z : List ShapedFeature) (xs : List ShapedFeature)

/-- Embeds `Detect.forward` (layer.py lines 55-72): first
`self.training |= self.export`, then per-scale reshape, and decode only
when not (effectively) training. Returns the updated module state (the
mutated `training` flag) with the output. -/
noncomputable def Detect.forward (d : Detect) (x : List RawFeature) :
    Detect × DetectOutput :=
  let training := d.training || d.exportFlag
  let d1 := { d with training := training }
  let xs := x.map (reshapeFeature d.na d.no)
  if training then (d1, .train xs)
  else (d1, .infer (xs.enum.map (fun p => decodeScale d p.1 p.2)) xs)

/-! ## Network facade stride and anchor initialisation
(`YOLO.__init__`, layer.py lines 95-99) -/

/-- Embeds `torch.tensor([64 / x.shape[-2] for x in
self.forward(torch.zeros(1, channels, 64, 64))])` (layer.py line 97):
one stride per detection scale, 64 divided by that scale's feature-map
spatial size on the 64x64 zero probe. -/
def buildStrides (featSizes : List ℚ) : List ℚ :=
  featSizes.map (fun s => 64 / s)

/-- Embeds `m.anchors /= m.stride.view(-1, 1, 1)` (layer.py line 98):
every component of scale `i`'s flat anchor row is divided by `stride i`. -/
def rescaleAnchors (anchors : List (List ℚ)) (strides : List ℚ) :
    List (List ℚ) :=
  List.zipWith (fun row s => row.map (fun a => a / s)) anchors strides

/-! ## Concrete configurations used as witnesses -/

/-- The two-scale anchor set of the end-to-end scenario. -/
def anchorsEx : List (List ℚ) := [[10, 13, 16, 30], [30, 61, 62, 45]]

/-- A small valid configuration: two backbone convolutions, a head
convolution reading layer 0 non-sequentially, and a two-source
concatenation. -/
def cfgA : ModelDict :=
  { anchors := anchorsEx
    num_classes := 1
    classes := none
    depth_multiple := 1
    width_multiple := 1
    backbone := [⟨.one (-1), 1, convName, [.int 8]⟩,
                 ⟨.one (-1), 1, convName, [.int 16]⟩]
    head := [⟨.one 0, 1, convName, [.int 8]⟩,
             ⟨.many [1, -1], 1, concatName, []⟩] }

/-- A configuration whose only layer names an unknown module kind. -/
def cfgUnknown : ModelDict :=
  { cfgA with backbone := [⟨.one (-1), 1, detectName ++ detectName, []⟩],
              head := [] }

/-- A string that is not a well-formed expression. -/
def badArg : String := "bad("

/-- A configuration containing a malformed argument expression (in a
max-pool layer, whose arguments are threaded through untouched). -/
def cfgMalformed : ModelDict :=
  { cfgA with backbone := [⟨.one (-1), 1, maxpoolName,
                            [.str badArg, .int 2]⟩],
              head := [] }

/-- A configuration in which two later layers both reference layer 0
non-sequentially, so the save list receives the index 0 twice. -/
def cfgDup : ModelDict :=
  { cfgA with backbone := [⟨.one (-1), 1, convName, [.int 8]⟩,
                           ⟨.one 0, 1, convName, [.int 8]⟩,
                           ⟨.one 0, 1, convName, [.int 8]⟩],
              head := [] }

/-- A configuration whose concatenation references layer 1 by its
non-negative index; layers 0 and 1 have distinct widths so the two index
resolutions disagree observably. -/
def cfgC5 : ModelDict :=
  { cfgA with backbone := [⟨.one (-1), 1, convName, [.int 8]⟩,
                           ⟨.one (-1), 1, convName, [.int 16]⟩,
                           ⟨.many [1], 1, concatName, []⟩],
              head := [] }

/-- An 80-class configuration for the class-count override scenario. -/
def cfg80 : ModelDict := { cfgA with num_classes := 80 }

/-! ## Observers used to state the claims without existential binders -/

/-- The save list of a build result (empty on failure). -/
def saveOf (e : Except PyErr ParseResult) : List Int :=
  match e with
  | .ok r => r.save
  | .error _ => []

/-- The channel list of a build result, when the build succeeded. -/
def chansOf (e : Except PyErr ParseResult) : Option (List Int) :=
  match e with
  | .ok r => some r.channels
  | .error _ => none

/-- The length of the channel list of a build result. -/
def chanLenOf (e : Except PyErr ParseResult) : Option Nat :=
  match e with
  | .ok r => some r.channels.length
  | .error _ => none

/-- The `out_channels` recorded by one successful loop iteration. -/
def stepOut (e : Except PyErr PState) : Option Int :=
  match e with
  | .ok st => some st.out_channels
  | .error _ => none

/-- The channel list after one successful loop iteration. -/
def stepChans (e : Except PyErr PState) : Option (List Int) :=
  match e with
  | .ok st => some st.channels
  | .error _ => none

/-- The recorded output channel count of layer `x` (with `-1` denoting the
previous layer) in a channel list whose index 0 is the input sentinel:
entry `x + 1` for a non-negative `x`, the last entry for `-1`. -/
def recordedOut (channels : List Int) (x : Int) : Int :=
  if x = -1 then channels.getLastD 0 else channels.getD (x + 1).toNat 0

/-! ## Theorems -/

theorem sorted_iff_insertionSort_eq (l : List Int) :
    l.Sorted (· ≤ ·) ↔ List.insertionSort (· ≤ ·) l = l :=
  ⟨fun h => h.insertionSort_eq,
   fun h => h ▸ List.sorted_insertionSort _ l⟩

theorem bisect_right_sorted (x : Int) :
    ∀ l : List Int, l.Sorted (· ≤ ·) →
      bisect_right l x = l.countP (fun m => decide (m ≤ x)) := by
  intro l
  induction l with
  | nil => intro _; rfl
  | cons a t ih =>
    intro hl
    rw [List.sorted_cons] at hl
    rw [bisect_right, List.countP_cons]
    by_cases hxa : x < a
    · rw [if_pos hxa]
      have h2 : t.countP (fun m => decide (m ≤ x)) = 0 := by
        refine List.countP_eq_zero.2 (fun m hm => ?_)
        simpa using (lt_of_lt_of_le hxa (hl.1 m hm)).not_le
      simp [h2, hxa.not_le]
    · rw [if_neg hxa, ih hl.2]
      simp [not_lt.1 hxa]

/-- C9: for the linear warmup method with `0 < warmup_iters` and a base
factor in `[0, 1]`, the warmup factor is 1 from `warmup_iters` on, equals
`warmup_factor * (1 - iters/warmup_iters) + iters/warmup_iters` before
that, always lies in `[warmup_factor, 1]`, and is monotonically
non-decreasing in the iteration count. -/
theorem warmup_linear_spec (wi : Int) (wf : ℚ) (hwi : 0 < wi)
    (h0 : 0 ≤ wf) (h1 : wf ≤ 1) :
    (∀ iters : Int, wi ≤ iters →
      getWarmupFactorAtIter linearName iters wi wf = .ok 1) ∧
    (∀ iters : Int, iters < wi →
      getWarmupFactorAtIter linearName iters wi wf =
        .ok (wf * (1 - (iters : ℚ) / (wi : ℚ)) + (iters : ℚ) / (wi : ℚ))) ∧
    (∀ iters : Int, 0 ≤ iters → ∀ r : ℚ,
      getWarmupFactorAtIter linearName iters wi wf = .ok r →
      wf ≤ r ∧ r ≤ 1) ∧
    (∀ i j : Int, 0 ≤ i → i ≤ j → ∀ ri rj : ℚ,
      getWarmupFactorAtIter linearName i wi wf = .ok ri →
      getWarmupFactorAtIter linearName j wi wf = .ok rj → ri ≤ rj) := by
  have hwiq : (0 : ℚ) < (wi : ℚ) := by exact_mod_cast hwi
  have heval : ∀ iters : Int,
      getWarmupFactorAtIter linearName iters wi wf =
        if wi ≤ iters then .ok 1
        else .ok (wf * (1 - (iters : ℚ) / (wi : ℚ)) +
          (iters : ℚ) / (wi : ℚ)) := by
    intro iters
    rw [getWarmupFactorAtIter]
    by_cases h : wi ≤ iters
    · rw [if_pos h, if_pos h]
    · rw [if_neg h, if_neg h, if_neg (by decide), if_pos rfl]
  have hbounds : ∀ iters : Int, 0 ≤ iters → iters < wi →
      wf ≤ wf * (1 - (iters : ℚ) / (wi : ℚ)) + (iters : ℚ) / (wi : ℚ) ∧
      wf * (1 - (iters : ℚ) / (wi : ℚ)) + (iters : ℚ) / (wi : ℚ) ≤ 1 := by
    intro iters hge hlt
    have ha0 : (0 : ℚ) ≤ (iters : ℚ) / (wi : ℚ) :=
      div_nonneg (by exact_mod_cast hge) hwiq.le
    have ha1 : (iters : ℚ) / (wi : ℚ) ≤ 1 := by
      rw [div_le_one hwiq]
      exact_mod_cast hlt.le
    constructor
    · nlinarith [mul_nonneg ha0 (sub_nonneg.2 h1)]
    · nlinarith [mul_nonneg (sub_nonneg.2 ha1) (sub_nonneg.2 h1)]
  refine ⟨fun iters h => by rw [heval, if_pos h], ?_, ?_, ?_⟩
  · intro iters h
    rw [heval, if_neg (not_le.2 h)]
  · intro iters hge r hr
    rw [heval] at hr
    by_cases h : wi ≤ iters
    · rw [if_pos h] at hr
      cases hr
      exact ⟨h1, le_refl 1⟩
    · rw [if_neg h] at hr
      cases hr
      exact hbounds iters hge (not_le.1 h)
  · intro i j hi hij ri rj hri hrj
    rw [heval] at hri hrj
    by_cases h2 : wi ≤ i
    · rw [if_pos h2] at hri
      rw [if_pos (le_trans h2 hij)] at hrj
      cases hri
      cases hrj
      exact le_refl 1
    · rw [if_neg h2] at hri
      cases hri
      by_cases h3 : wi ≤ j
      · rw [if_pos h3] at hrj
        cases hrj
        exact (hbounds i hi (not_le.1 h2)).2
      · rw [if_neg h3] at hrj
        cases hrj
        have hmono : (i : ℚ) / (wi : ℚ) ≤ (j : ℚ) / (wi : ℚ) := by
          apply div_le_div_of_nonneg_right ?_ hwiq.le
          exact_mod_cast hij
        nlinarith [mul_nonneg (sub_nonneg.2 hmono) (sub_nonneg.2 h1)]

theorem warmup_linear_spec_witness :
    (1 : ℚ) / 2 ≤ 3 / 4 ∧ (3 : ℚ) / 4 ≤ 1 :=
  (warmup_linear_spec 4 (1 / 2) (by norm_num) (by norm_num)
    (by norm_num)).2.2.1 2 (by norm_num) (3 / 4) (by with_unfolding_all rfl)

/-- C10: the `WarmupMultiStepLR` constructor fails with `ValueError`
exactly when the milestone list is not in non-decreasing order, and for a
validated scheduler every learning rate equals `base_lr * warmup_factor *
gamma ^ (number of milestones that are at most the current epoch)`. -/
theorem warmup_multistep_spec (ms : List Int) (gamma wf : ℚ) (wi : Int)
    (wm : String) :
    (isOkB (warmupMultiStepLRInit ms gamma wf wi wm) = false ↔
      ¬ ms.Sorted (· ≤ ·)) ∧
    (∀ s : WarmupMultiStepLRSched,
      warmupMultiStepLRInit ms gamma wf wi wm = .ok s →
      ∀ (bls : List ℚ) (e : Int) (w : ℚ),
        getWarmupFactorAtIter wm e wi wf = .ok w →
        getLR s bls e = .ok (bls.map (fun b =>
          b * w * gamma ^ ms.countP (fun m => decide (m ≤ e))))) := by
  constructor
  · by_cases hs : ms.Sorted (· ≤ ·)
    · rw [warmupMultiStepLRInit,
        if_pos ((sorted_iff_insertionSort_eq ms).mp hs).symm]
      simp [isOkB, hs]
    · rw [warmupMultiStepLRInit,
        if_neg (fun hc => hs ((sorted_iff_insertionSort_eq ms).mpr hc.symm))]
      simp [isOkB, hs]
  · intro s hinit bls e w hw
    rw [warmupMultiStepLRInit] at hinit
    by_cases hc : ms = List.insertionSort (· ≤ ·) ms
    · rw [if_pos hc] at hinit
      cases hinit
      rw [getLR]
      rw [hw]
      rw [bisect_right_sorted e ms ((sorted_iff_insertionSort_eq ms).mpr hc.symm)]
    · rw [if_neg hc] at hinit
      cases hinit

theorem warmup_multistep_spec_witness :
    getLR ⟨[2, 4], 1 / 2, 1, 1, linearName⟩ [10] 3 =
      .ok ([10].map (fun b => b * 1 *
        (1 / 2 : ℚ) ^ ([2, 4].countP (fun m => decide (m ≤ (3 : Int)))))) :=
  (warmup_multistep_spec [2, 4] (1 / 2) 1 1 linearName).2
    ⟨[2, 4], 1 / 2, 1, 1, linearName⟩ (by with_unfolding_all rfl)
    [10] 3 1 (by with_unfolding_all rfl)

theorem sigmoid_pos (t : ℝ) : 0 < sigmoid t := by
  rw [sigmoid]
  positivity

theorem sigmoid_lt_one (t : ℝ) : sigmoid t < 1 := by
  rw [sigmoid, div_lt_one (by positivity)]
  linarith [Real.exp_pos (-t)]

/-- C1: in inference mode `Detect.forward` decodes every scale with
`decodeXY`/`decodeWH` (centers `(sigmoid*2 - 0.5 + gridCell) * stride`,
sizes `(sigmoid*2)^2 * anchor`); consequently every decoded size lies in
`[0, 4]` times the anchor prior and every decoded center lies within
`stride * [-0.5, 1.5]` of its grid cell's pixel origin. -/
theorem detect_decode_spec (t cell stride anchor : ℝ) (hs : 0 ≤ stride)
    (ha : 0 ≤ anchor) :
    (∀ (d : Detect) (x : List RawFeature),
      d.training = false → d.exportFlag = false →
      (Detect.forward d x).2 = DetectOutput.infer
        ((x.map (reshapeFeature d.na d.no)).enum.map
          (fun p => decodeScale d p.1 p.2))
        (x.map (reshapeFeature d.na d.no))) ∧
    (0 ≤ decodeWH t anchor ∧ decodeWH t anchor ≤ 4 * anchor) ∧
    (-(0.5) * stride ≤ decodeXY t cell stride - cell * stride ∧
      decodeXY t cell stride - cell * stride ≤ 1.5 * stride) := by
  have hp := sigmoid_pos t
  have hl := sigmoid_lt_one t
  refine ⟨?_, ⟨?_, ?_⟩, ⟨?_, ?_⟩⟩
  · intro d x h1 h2
    rw [Detect.forward]
    simp [h1, h2]
  · exact mul_nonneg (sq_nonneg _) ha
  · rw [decodeWH]
    have h4 : (sigmoid t * 2) ^ 2 ≤ 4 := by nlinarith
    nlinarith
  · rw [decodeXY]
    nlinarith
  · rw [decodeXY]
    nlinarith

theorem detect_decode_spec_witness :
    0 ≤ decodeWH 0 10 ∧ decodeWH 0 10 ≤ 4 * 10 :=
  (detect_decode_spec 0 3 32 10 (by norm_num) (by norm_num)).2.1

/-- C8: when the export flag is set, `Detect.forward` returns the
training-mode output (the reshaped, undecoded per-scale tensors) no
matter what the training flag was, and it sets the training flag to
true as a side effect. -/
theorem detect_export_spec (d : Detect) (x : List RawFeature)
    (h : d.exportFlag = true) :
    (Detect.forward d x).2 =
      DetectOutput.train (x.map (reshapeFeature d.na d.no)) ∧
    (Detect.forward d x).1.training = true := by
  rw [Detect.forward]
  simp [h]

/-- A concrete `Detect` state that is in evaluation mode but has the
export flag set. -/
noncomputable def dEx : Detect :=
  { num_classes := 1
    nl := 1
    na := 1
    anchor_grid := fun _ _ => (10, 13)
    stride := fun _ => 32
    training := false
    exportFlag := true }

/-- A concrete 2x2 single-batch raw feature map. -/
noncomputable def rawEx : RawFeature := ⟨1, 2, 2, fun _ _ _ _ => 0⟩

theorem detect_export_spec_witness :
    (Detect.forward dEx [rawEx]).2 =
      DetectOutput.train ([rawEx].map (reshapeFeature dEx.na dEx.no)) ∧
    (Detect.forward dEx [rawEx]).1.training = true :=
  detect_export_spec dEx [rawEx] rfl

/-- C2: the facade's stride measurement maps downsampling factors back to
themselves (`64 / (64 / d) = d`), so two detection layers downsampling by
32 and 16 (feature sizes 2 and 4 on the 64x64 probe) yield strides
`[32, 16]`, and dividing the scenario's pixel anchors by those strides
gives exactly the per-stride anchor set. -/
theorem stride_anchor_init_spec :
    (∀ ds : List ℚ, (∀ d ∈ ds, d ≠ 0) →
      buildStrides (ds.map (fun d => 64 / d)) = ds) ∧
    buildStrides [2, 4] = [32, 16] ∧
    rescaleAnchors anchorsEx [32, 16] =
      [[10 / 32, 13 / 32, 16 / 32, 30 / 32],
       [30 / 16, 61 / 16, 62 / 16, 45 / 16]] := by
  refine ⟨?_, by with_unfolding_all rfl, ?_⟩
  · intro ds hds
    induction ds with
    | nil => rfl
    | cons d rest ih =>
      rw [List.map_cons, buildStrides, List.map_cons]
      have hd : d ≠ 0 := hds d (List.mem_cons_self d rest)
      have h64 : (64 : ℚ) / (64 / d) = d := by
        field_simp
      rw [h64]
      have := ih (fun a ha => hds a (List.mem_cons_of_mem d ha))
      rw [buildStrides] at this
      rw [this]
  · rw [rescaleAnchors, anchorsEx]
    norm_num

theorem stride_anchor_init_spec_witness :
    buildStrides (List.map (fun d => 64 / d) [32, 16]) = [32, 16] :=
  stride_anchor_init_spec.1 [32, 16] (by norm_num)

theorem pyGet_neg_one (C : List Int) (h : C ≠ []) :
    pyGet C (-1) = .ok (C.getLastD 0) := by
  have hlen : 0 < C.length := List.length_pos.2 h
  have h1 : ((-1 : Int) < 0) = True := by simp
  have h2 : (0 ≤ -1 + (C.length : Int)) = True := by simp; omega
  simp only [pyGet, h1, if_true, h2]
  have h3 : (-1 + (C.length : Int)).toNat = C.length - 1 := by omega
  rw [h3, List.get?_eq_getElem?, ← List.getLast?_eq_getElem?,
    List.getLast?_eq_getLast_of_ne_nil h]
  rw [List.getLastD_eq_getLast?, List.getLast?_eq_getLast_of_ne_nil h]
  rfl

theorem pyGet_nonneg (C : List Int) (x : Int) (h0 : 0 ≤ x)
    (hlt : x < (C.length : Int)) : pyGet C x = .ok (C.getD x.toNat 0) := by
  have hlt2 : x.toNat < C.length := by omega
  simp only [pyGet, if_neg (not_lt.2 h0), if_pos h0]
  rw [List.get?_eq_getElem?, List.getElem?_eq_getElem hlt2,
    List.getD_eq_getElem C 0 hlt2]

theorem mapExc_concat (C : List Int) (hne : C ≠ []) :
    ∀ xs : List Int,
      (∀ x ∈ xs, x = -1 ∨ (0 ≤ x ∧ x + 1 < (C.length : Int))) →
      mapExc (fun x => pyGet C (if x = -1 then -1 else x + 1)) xs =
        .ok (xs.map (recordedOut C)) := by
  intro xs
  induction xs with
  | nil => intro _; rfl
  | cons x rest ih =>
    intro hx
    have hhead : pyGet C (if x = -1 then -1 else x + 1) =
        .ok (recordedOut C x) := by
      rcases hx x (List.mem_cons_self x rest) with h | ⟨ha, hb⟩
      · rw [if_pos h, pyGet_neg_one C hne, recordedOut, if_pos h]
      · have hxne : x ≠ -1 := by omega
        rw [if_neg hxne, recordedOut, if_neg hxne,
          pyGet_nonneg C (x + 1) (by omega) hb]
    rw [mapExc, hhead, ih (fun a ha => hx a (List.mem_cons_of_mem x ha)),
      List.map_cons]

theorem saveEntries_pos (f : FSpec) (i : Nat) (hi : i ≠ 0) :
    saveEntries f i =
      .ok ((f.indices.filter (fun x => x ≠ -1)).map
        (fun x => x % (i : Int))) := by
  rw [saveEntries]
  induction f.indices.filter (fun x => x ≠ -1) with
  | nil => rfl
  | cons x rest ih => rw [mapExc, if_neg hi, ih, List.map_cons]

theorem parseStep_ok_channels (ctx : Ctx) (st : PState) (spec : LayerSpec)
    (st' : PState) (h : parseStep ctx st spec = .ok st') :
    st'.channels = st.channels ++ [st'.out_channels] ∧ st'.i = st.i + 1 := by
  rw [parseStep] at h
  split at h
  · exact Except.noConfusion h
  · split at h
    · exact Except.noConfusion h
    · split at h
      · exact Except.noConfusion h
      · rw [Except.ok.injEq] at h
        subst h
        exact ⟨rfl, rfl⟩

theorem parseStep_ok_module (ctx : Ctx) (st : PState) (spec : LayerSpec)
    (st' : PState) (h : parseStep ctx st spec = .ok st') :
    isOkB (resolveModule spec.module) = true := by
  rw [parseStep] at h
  split at h
  · exact Except.noConfusion h
  all_goals rename_i heq
  case _ kind heq =>
    rw [heq]
    rfl

theorem parseStep_module_error (ctx : Ctx) (st : PState) (spec : LayerSpec)
    (h : isOkB (resolveModule spec.module) = false) :
    isOkB (parseStep ctx st spec) = false := by
  rw [parseStep]
  cases hr : resolveModule spec.module with
  | error e => rfl
  | ok kind => rw [hr] at h; exact Bool.noConfusion h

theorem runParse_ok_len (ctx : Ctx) :
    ∀ (specs : List LayerSpec) (st st' : PState),
      runParse ctx st specs = .ok st' →
      st'.channels.length = st.channels.length + specs.length := by
  intro specs
  induction specs with
  | nil =>
    intro st st' h
    rw [runParse] at h
    rw [Except.ok.injEq] at h
    subst h
    simp
  | cons s rest ih =>
    intro st st' h
    rw [runParse] at h
    cases hps : parseStep ctx st s with
    | error e => rw [hps] at h; exact Except.noConfusion h
    | ok st1 =>
      rw [hps] at h
      have h1 := (parseStep_ok_channels ctx st s st1 hps).1
      have h2 := ih st1 st' h
      rw [h2, h1]
      simp [List.length_append]
      omega

theorem runParse_unknown (ctx : Ctx) :
    ∀ (specs : List LayerSpec) (st : PState),
      (∃ s ∈ specs, isOkB (resolveModule s.module) = false) →
      isOkB (runParse ctx st specs) = false := by
  intro specs
  induction specs with
  | nil =>
    intro st h
    rcases h with ⟨s, hs, _⟩
    exact absurd hs (List.not_mem_nil s)
  | cons s rest ih =>
    intro st h
    rw [runParse]
    cases hps : parseStep ctx st s with
    | error e => rfl
    | ok st1 =>
      rcases h with ⟨s2, hs2, hbad⟩
      rcases List.mem_cons.1 hs2 with heq | hmem
      · subst heq
        have := parseStep_ok_module ctx st s2 st1 hps
        rw [this] at hbad
        exact Bool.noConfusion hbad
      · exact ih st1 ⟨s2, hmem, hbad⟩

/-- C3 (amended): a configuration naming an unknown module kind fails the
build eagerly (the dynamic evaluation raises a `NameError`; the repository
defines no `ConfigError` class) and no partially built graph is returned;
a malformed argument expression, however, does not fail the build: the
`except: pass` swallows the evaluation error and the raw string is kept
as the argument. -/
theorem config_error_spec (md : ModelDict) (ch : List Int)
    (h : ∃ s ∈ md.backbone ++ md.head,
      isOkB (resolveModule s.module) = false) :
    isOkB (parse_model md ch) = false ∧
    (∀ s : String, s.toInt? = none → resolveArg (.str s) = .str s) := by
  constructor
  · cases hma : md.anchors with
    | nil => simp [parse_model, hma, isOkB]
    | cons a as =>
      cases hcl : ch.getLast? with
      | none => simp [parse_model, hma, hcl, isOkB]
      | some cLast =>
        have hrun := runParse_unknown
          ⟨md.depth_multiple, md.width_multiple, numOutputsOf md⟩
          (md.backbone ++ md.head) ⟨0, ch, cLast, [], []⟩ h
        cases hrp : runParse
            ⟨md.depth_multiple, md.width_multiple, numOutputsOf md⟩
            ⟨0, ch, cLast, [], []⟩ (md.backbone ++ md.head) with
        | error e => simp [parse_model, hma, hcl, hrp, isOkB]
        | ok st =>
          rw [hrp] at hrun
          exact Bool.noConfusion hrun
  · intro s hs
    rw [resolveArg, hs]

theorem config_error_spec_witness :
    isOkB (parse_model cfgUnknown [3]) = false ∧
    resolveArg (.str badArg) = .str badArg := by
  have h := config_error_spec cfgUnknown [3]
    ⟨⟨.one (-1), 1, detectName ++ detectName, []⟩, by decide, by decide⟩
  exact ⟨h.1, h.2 badArg (by with_unfolding_all rfl)⟩

theorem config_error_spec_cex :
    isOkB (parse_model cfgMalformed [3]) = true ∧
    resolveArg (.str badArg) = .str badArg ∧ badArg.toInt? = none := by
  refine ⟨by with_unfolding_all rfl, by with_unfolding_all rfl,
    by with_unfolding_all rfl⟩

/-- C4 (amended): for every configuration the build accepts, the returned
save list is sorted in non-decreasing order (it is `sorted(save)`); it is
not deduplicated, so several layers referencing the same earlier layer
leave duplicate indices in it. -/
theorem save_sorted_spec (md : ModelDict) (ch : List Int)
    (h : isOkB (parse_model md ch) = true) :
    (saveOf (parse_model md ch)).Sorted (· ≤ ·) := by
  cases hma : md.anchors with
  | nil => simp [parse_model, hma, isOkB] at h
  | cons a as =>
    cases hcl : ch.getLast? with
    | none => simp [parse_model, hma, hcl, isOkB] at h
    | some cLast =>
      cases hrp : runParse
          ⟨md.depth_multiple, md.width_multiple, numOutputsOf md⟩
          ⟨0, ch, cLast, [], []⟩ (md.backbone ++ md.head) with
      | error e => simp [parse_model, hma, hcl, hrp, isOkB] at h
      | ok st =>
        simp only [saveOf, parse_model, hma, hcl, hrp]
        exact List.sorted_insertionSort (· ≤ ·) st.save

theorem save_sorted_spec_witness :
    List.Sorted (· ≤ ·) (saveOf (parse_model cfgDup [3])) :=
  save_sorted_spec cfgDup [3] (by with_unfolding_all rfl)

theorem save_sorted_spec_cex :
    saveOf (parse_model cfgDup [3]) = [0, 0] ∧
    ¬ ([0, 0] : List Int).Nodup := by
  refine ⟨by with_unfolding_all rfl, by decide⟩

/-- C5 (amended): a concatenation layer's recorded output channel count is
the exact sum of its source layers' recorded output channel counts, where
a source `-1` denotes the previous layer and a non-negative source `x`
denotes layer `x` (i.e. entry `x + 1` of the channel list) — which is not
the resolution used for single-source layers (`channels[f]`, i.e. entry
`f` itself). -/
theorem concat_channels_spec (ctx : Ctx) (st : PState) (xs : List Int)
    (args : List Val) (number : Int) (hi : st.i ≠ 0)
    (hne : st.channels ≠ [])
    (hxs : ∀ x ∈ xs, x = -1 ∨ (0 ≤ x ∧ x + 1 < (st.channels.length : Int))) :
    stepOut (parseStep ctx st ⟨.many xs, number, concatName, args⟩) =
      some ((xs.map (recordedOut st.channels)).sum) ∧
    stepChans (parseStep ctx st ⟨.many xs, number, concatName, args⟩) =
      some (st.channels ++ [(xs.map (recordedOut st.channels)).sum]) := by
  have hm : resolveModule concatName = .ok .concat := by
    with_unfolding_all rfl
  have hlr : layerRule ctx st .concat
      ((⟨.many xs, number, concatName, args⟩ : LayerSpec).args.map resolveArg)
      (depthGain (⟨.many xs, number, concatName, args⟩ : LayerSpec).number
        ctx.depth_multiple)
      (⟨.many xs, number, concatName, args⟩ : LayerSpec).f =
      .ok (.many xs, (xs.map (recordedOut st.channels)).sum,
        args.map resolveArg, depthGain number ctx.depth_multiple) := by
    rw [layerRule]
    rw [mapExc_concat st.channels hne xs hxs]
  have hsv := saveEntries_pos (.many xs) st.i hi
  simp only [parseStep, hm, hlr, hsv]
  exact ⟨rfl, rfl⟩

theorem concat_channels_spec_witness :
    stepOut (parseStep ⟨1, 1, 12⟩ ⟨2, [3, 8, 16], 16, [], []⟩
        ⟨.many [1, -1], 1, concatName, []⟩) =
      some (([1, -1].map (recordedOut [3, 8, 16])).sum) ∧
    stepChans (parseStep ⟨1, 1, 12⟩ ⟨2, [3, 8, 16], 16, [], []⟩
        ⟨.many [1, -1], 1, concatName, []⟩) =
      some ([3, 8, 16] ++ [([1, -1].map (recordedOut [3, 8, 16])).sum]) :=
  concat_channels_spec ⟨1, 1, 12⟩ ⟨2, [3, 8, 16], 16, [], []⟩ [1, -1] [] 1
    (by decide) (by decide) (by decide)

theorem concat_channels_spec_cex :
    chansOf (parse_model cfgC5 [3]) = some [3, 8, 16, 16] ∧
    pyGet [3, 8, 16] 1 = .ok 8 ∧ (16 : Int) ≠ 8 := by
  refine ⟨by with_unfolding_all rfl, by with_unfolding_all rfl, by decide⟩

/-- C6: for every configuration the build accepts, the final channel list
has one entry per built layer plus the input sentinel, so its length is
`len(backbone) + len(head) + 1`; each loop iteration appends exactly one
entry. -/
theorem channel_length_spec :
    (∀ (md : ModelDict) (c : Int), isOkB (parse_model md [c]) = true →
      chanLenOf (parse_model md [c]) =
        some (md.backbone.length + md.head.length + 1)) ∧
    (∀ (ctx : Ctx) (st : PState) (spec : LayerSpec),
      isOkB (parseStep ctx st spec) = true →
      (stepChans (parseStep ctx st spec)).map List.length =
        some (st.channels.length + 1)) := by
  constructor
  · intro md c h
    cases hma : md.anchors with
    | nil => simp [parse_model, hma, isOkB] at h
    | cons a as =>
      cases hcl : ([c] : List Int).getLast? with
      | none => simp at hcl
      | some cLast =>
        cases hrp : runParse
            ⟨md.depth_multiple, md.width_multiple, numOutputsOf md⟩
            ⟨0, [c], cLast, [], []⟩ (md.backbone ++ md.head) with
        | error e => simp [parse_model, hma, hcl, hrp, isOkB] at h
        | ok st =>
          have hlen := runParse_ok_len
            ⟨md.depth_multiple, md.width_multiple, numOutputsOf md⟩
            (md.backbone ++ md.head) ⟨0, [c], cLast, [], []⟩ st hrp
          simp only [chanLenOf, parse_model, hma, hcl, hrp]
          rw [hlen]
          simp [List.length_append]
          omega
  · intro ctx st spec h
    cases hps : parseStep ctx st spec with
    | error e => rw [hps] at h; exact Bool.noConfusion h
    | ok st1 =>
      have h1 := (parseStep_ok_channels ctx st spec st1 hps).1
      simp only [stepChans, Option.map_some]
      rw [h1]
      simp

theorem channel_length_spec_witness :
    chanLenOf (parse_model cfgA [3]) =
      some (cfgA.backbone.length + cfgA.head.length + 1) :=
  channel_length_spec.1 cfgA 3 (by with_unfolding_all rfl)

/-- C7: the class-count override of `YOLO.__init__` writes the `classes`
key of the configuration, but `parse_model` reads the class count from
the `num_classes` key, so the override leaves the class count the builder
uses — and with it the detection-output width `num_anchors *
(num_classes + 5)` — unchanged. -/
theorem classes_override_spec (md : ModelDict) (c : Int) (hc : c ≠ 0) :
    (yoloOverrideClasses md (some c)).num_classes = md.num_classes ∧
    (yoloOverrideClasses md (some c)).classes = some c ∧
    numOutputsOf (yoloOverrideClasses md (some c)) = numOutputsOf md := by
  rw [yoloOverrideClasses, if_pos hc]
  exact ⟨rfl, rfl, rfl⟩

theorem classes_override_spec_witness :
    (yoloOverrideClasses cfg80 (some 2)).num_classes = cfg80.num_classes ∧
    (yoloOverrideClasses cfg80 (some 2)).classes = some 2 ∧
    numOutputsOf (yoloOverrideClasses cfg80 (some 2)) = numOutputsOf cfg80 :=
  classes_override_spec cfg80 2 (by decide)
